import Mathlib

/-!
Verification of the document-to-graph pipeline scripts.

This file gives a shallow embedding of the data model and the operations of
the repository's extraction/merge/write pipeline
(src/cyber-poc_2-langchain-document-to-graph-adaptive.py,
src/neo4j_2b.i-langchain-document-to-graph-parallel.py) and of the duplicate
detection / resolution engine (src/neo4j_9-entity-duplicate-detection.py),
and proves or refutes the specification's testable properties about them.

Python dictionaries produced by json parsing are embedded as structures whose
fields are of type Option String: none models an absent key (dict.get
returning None), some s a present string value.  External collaborators (the
Neo4j driver, the LLM endpoint, the stdlib json parser, the interactive
operator) are modelled as oracle functions passed as arguments.
-/

namespace DocGraph

/-- An extracted entity: the fields the scripts read from the parsed JSON
dict via entity.get("id") / .get("type") / .get("name") / .get("properties"). -/
structure Entity where
  eid : Option String
  etype : Option String
  ename : Option String
  props : List (String × String)
deriving Repr, DecidableEq

/-- An extracted relationship: rel.get("source") / .get("target") /
.get("type") / .get("properties"). -/
structure Relationship where
  source : Option String
  target : Option String
  rtype : Option String
  props : List (String × String)
deriving Repr, DecidableEq

/-- Per-chunk output of extract_entities_relationships:
a dict with keys entities and relationships. -/
structure ExtractionResult where
  entities : List Entity
  relationships : List Relationship
deriving Repr, DecidableEq

/-- The empty result returned on extraction failure:
entities=[], relationships=[]. -/
def emptyResult : ExtractionResult :=
  { entities := [], relationships := [] }

/-- How Python renders an optional string inside an f-string:
None prints as "None". -/
def pyStr : Option String → String
  | none => "None"
  | some s => s

/-- The relationship merge key built at line 450 of the adaptive script
(line 339 of the parallel script): the f-string joining source, type and
target with literal dashes. -/
def relKey (r : Relationship) : String :=
  pyStr r.source ++ "-" ++ pyStr r.rtype ++ "-" ++ pyStr r.target

/-- The loop body shared by both dedup passes of merge_extracted_data:
walk the items in order, keep an item iff its key is not in the seen set,
and record the key.  seen models the Python set (membership only). -/
def dedupLoop {α κ : Type} [DecidableEq κ] (key : α → κ) :
    List α → List κ → List α
  | [], _ => []
  | x :: rest, seen =>
    if key x ∈ seen then dedupLoop key rest seen
    else x :: dedupLoop key rest (key x :: seen)

/-- All entities of a result list in chunk order (the nested
for data in data_list / for entity in data.get("entities") iteration). -/
def allEntities (dataList : List ExtractionResult) : List Entity :=
  (dataList.map ExtractionResult.entities).flatten

/-- All relationships of a result list in chunk order. -/
def allRelationships (dataList : List ExtractionResult) : List Relationship :=
  (dataList.map ExtractionResult.relationships).flatten

/-- merge_extracted_data (adaptive script lines 427-456, parallel script
lines 316-345): dedup entities by entity.get("id"), first occurrence wins;
dedup relationships by the string key source-type-target, first occurrence
wins. -/
def merge_extracted_data (dataList : List ExtractionResult) : ExtractionResult :=
  { entities := dedupLoop Entity.eid (allEntities dataList) [],
    relationships := dedupLoop relKey (allRelationships dataList) [] }

/-! ## Parallel collection of per-chunk results

The adaptive script (lines 806-893) prepares results = [None] * len(chunks)
and, in the completion callback, stores each non-falsy result into the slot
of its chunk index (results[idx] = result), finally keeping the non-None
slots in index order.  The parallel script neo4j_2b.i (lines 461-472)
instead iterates concurrent.futures.as_completed and appends each truthy
result to all_extracted_data in completion order.

A run's completion behaviour is modelled as the list of completion events in
completion order: pairs of the chunk index and the result returned by
process_chunk for that chunk (none when the chunk failed; process_chunk
never returns an empty truthy dict, so the truthiness test on a result is
isSome). -/

/-- One completion callback of the adaptive script: a non-falsy result is
stored into the slot of its chunk index (results[idx] = result), a falsy
one leaves the slots unchanged. -/
def writeStep (slots : List (Option ExtractionResult))
    (c : Nat × Option ExtractionResult) : List (Option ExtractionResult) :=
  match c.2 with
  | some r => slots.set c.1 (some r)
  | none => slots

/-- The slot array written by the adaptive script's update_progress
callbacks over a whole run, starting from results = [None] * n. -/
def writeSlots (n : Nat)
    (completions : List (Nat × Option ExtractionResult)) :
    List (Option ExtractionResult) :=
  completions.foldl writeStep (List.replicate n none)

/-- Adaptive script, line 892: all_extracted_data =
the non-None slots in index order. -/
def collectParallelAdaptive (n : Nat)
    (completions : List (Nat × Option ExtractionResult)) :
    List ExtractionResult :=
  (writeSlots n completions).filterMap id

/-- neo4j_2b.i lines 461-465: append each truthy completed result in
completion order. -/
def collectParallel2b
    (completions : List (Nat × Option ExtractionResult)) :
    List ExtractionResult :=
  completions.foldl
    (fun acc c =>
      match c.2 with
      | some r => acc ++ [r]
      | none => acc)
    []

/-- The unique value written into slot j (first and only completion event
for index j when indices are distinct). -/
def slotVal (completions : List (Nat × Option ExtractionResult)) (j : Nat) :
    Option ExtractionResult :=
  match completions.find? (fun p => p.1 == j) with
  | some p => p.2
  | none => none

/-! ## extract_entities_relationships (adaptive script, lines 138-319)

The LLM chain and the stdlib json parser are external: each attempt's chain
invocation is an LLMOutcome (timed out / raised / returned a string), and
json.loads is an oracle parse : String -> Option ExtractionResult (none
models json.JSONDecodeError).  The outcomes list has one element per loop
iteration of for attempt in range(max_attempts). -/

/-- Outcome of one chain.invoke attempt as observed through the
ThreadPoolExecutor future. -/
inductive LLMOutcome where
  | timeout
  | exn
  | output (s : String)
deriving Repr, DecidableEq

/-- The character written as a left curly brace (code point 123). -/
def openBrace : Char := Char.ofNat 123

/-- The character written as a right curly brace (code point 125). -/
def closeBrace : Char := Char.ofNat 125

/-- Index of the first occurrence of a character in a character list. -/
def findIdxAux (c : Char) : List Char → Option Nat
  | [] => none
  | x :: rest => if x = c then some 0 else (findIdxAux c rest).map (· + 1)

/-- Python str.find for a single character: index of first occurrence,
-1 when absent. -/
def pyFind (s : String) (c : Char) : Int :=
  match findIdxAux c s.toList with
  | some i => (i : Int)
  | none => -1

/-- Python str.rfind for a single character: index of last occurrence,
-1 when absent. -/
def pyRFind (s : String) (c : Char) : Int :=
  match findIdxAux c s.toList.reverse with
  | some i => ((s.toList.length - 1 - i : Nat) : Int)
  | none => -1

/-- Python s[a:b] for nonnegative bounds. -/
def pySlice (s : String) (a b : Int) : String :=
  String.mk ((s.toList.drop a.toNat).take (b.toNat - a.toNat))

/-- Replace every non-overlapping occurrence of the two-character pattern
a,b by the single character r, scanning left to right (Python str.replace
with a 2-character pattern and 1-character replacement). -/
def replacePair (a b r : Char) : List Char → List Char
  | [] => []
  | [x] => [x]
  | x :: y :: rest =>
    if x = a ∧ y = b then r :: replacePair a b r rest
    else x :: replacePair a b r (y :: rest)

/-- Line 286 of the adaptive script: fixed_json =
json_str.replace(",]", "]").replace(",AltRBrace", "AltRBrace") where
AltRBrace is the right curly brace: strip trailing commas before closing
brackets and braces. -/
def fixJson (s : String) : String :=
  String.mk (replacePair ',' closeBrace closeBrace
    (replacePair ',' ']' ']' s.toList))

/-- The retry loop of extract_entities_relationships (lines 222-319).
Each list element is one attempt; rest.isEmpty models
attempt == max_attempts - 1.  json_end is rfind + 1 as in line 262, so the
test json_end != -1 at line 264 is vacuous (rfind + 1 is never -1). -/
def extractLoop (parse : String → Option ExtractionResult) :
    List LLMOutcome → ExtractionResult
  | [] => emptyResult
  | o :: rest =>
    match o with
    | .timeout => if rest.isEmpty then emptyResult else extractLoop parse rest
    | .exn => if rest.isEmpty then emptyResult else extractLoop parse rest
    | .output s =>
      let jsonStart := pyFind s openBrace
      let jsonEnd := pyRFind s closeBrace + 1
      if jsonStart ≠ -1 ∧ jsonEnd ≠ -1 then
        match parse (pySlice s jsonStart jsonEnd) with
        | some d => d
        | none =>
          match parse (fixJson (pySlice s jsonStart jsonEnd)) with
          | some d => d
          | none => if rest.isEmpty then emptyResult else extractLoop parse rest
      else
        if rest.isEmpty then emptyResult else extractLoop parse rest

/-- extract_entities_relationships: LLM initialisation failure (lines
146-152) short-circuits to the empty result; otherwise the attempt loop
runs. -/
def extract_entities_relationships (initOk : Bool)
    (parse : String → Option ExtractionResult)
    (outcomes : List LLMOutcome) : ExtractionResult :=
  if initOk then extractLoop parse outcomes else emptyResult

/-- One attempt yields nothing: the chain timed out or raised, or its output
string fails both the direct parse and the trailing-comma-repaired parse of
the first-to-last-brace slice (or has no opening brace at all). -/
def attemptFailsB (parse : String → Option ExtractionResult) :
    LLMOutcome → Bool
  | .timeout => true
  | .exn => true
  | .output s =>
    let jsonStart := pyFind s openBrace
    let jsonEnd := pyRFind s closeBrace + 1
    if jsonStart ≠ -1 ∧ jsonEnd ≠ -1 then
      (parse (pySlice s jsonStart jsonEnd)).isNone &&
        (parse (fixJson (pySlice s jsonStart jsonEnd))).isNone
    else true

/-! ## build_graph (adaptive script lines 322-394, parallel script
lines 186-264)

The Neo4j driver is an oracle deciding which queries raise.  The embedding
returns the trace of observable actions: queries issued and error messages
printed.  A raised clear query (line 326, not wrapped in try) propagates as
an error; entity and relationship writes are each wrapped in try/except
(lines 349-355 and 387-394), so their failures append an error log and the
loop continues. -/

/-- Oracle for the graph store used by build_graph. -/
structure GraphDb where
  clearOk : Bool
  entityWriteOk : Entity → Bool
  relWriteOk : Relationship → Bool

/-- Python-level exceptions that the embedding distinguishes. -/
inductive PyErr where
  | unboundLocalMergedData
  | dbError (msg : String)
deriving Repr, DecidableEq

/-- Observable actions of build_graph: issued queries and printed error
logs. -/
inductive BuildEvent where
  | clearQuery
  | entityQuery (e : Entity) (ok : Bool)
  | entityErrorLog (e : Entity)
  | relQuery (r : Relationship) (ok : Bool)
  | relErrorLog (r : Relationship)
deriving Repr, DecidableEq

/-- Lines 359-364: source_id = rel.get("source", ""), falsy (None or empty)
source or target triggers the skip. -/
def missingRef (r : Relationship) : Bool :=
  (r.source.getD "") = "" || (r.target.getD "") = ""

/-- The entity write loop (lines 329-355): one MERGE query per entity,
failure caught and logged, loop continues. -/
def entityLoop (db : GraphDb) : List Entity → List BuildEvent
  | [] => []
  | e :: rest =>
    (if db.entityWriteOk e then [.entityQuery e true]
     else [.entityQuery e false, .entityErrorLog e]) ++ entityLoop db rest

/-- The relationship write loop (lines 358-394): a missing source or target
id hits the bare continue at line 364 (no query, no log); otherwise one
MERGE query, failure caught and logged, loop continues. -/
def relLoop (db : GraphDb) : List Relationship → List BuildEvent
  | [] => []
  | r :: rest =>
    (if missingRef r then []
     else if db.relWriteOk r then [.relQuery r true]
     else [.relQuery r false, .relErrorLog r]) ++ relLoop db rest

/-- build_graph: optional clear (unprotected), then the two write loops. -/
def build_graph (db : GraphDb) (extracted : ExtractionResult)
    (clear_existing : Bool) : Except PyErr (List BuildEvent) :=
  if clear_existing then
    if db.clearOk then
      .ok (.clearQuery :: (entityLoop db extracted.entities ++
        relLoop db extracted.relationships))
    else .error (.dbError "clear")
  else
    .ok (entityLoop db extracted.entities ++
      relLoop db extracted.relationships)

/-! ## The post-extraction stage of the adaptive script's
process_document_to_graph (lines 937-1017)

In the source, the local variable merged_data is read at line 937 (the
emptiness check) while its only assignment is at line 944; merged_data_var
is the binding state of that local when line 937 runs, which is none in
every invocation because no assignment precedes the read. -/

/-- Lines 937-983: read merged_data for the emptiness check (line 937,
raising UnboundLocalError when unbound), early-return when empty (line 940),
else assign merged_data = merge_extracted_data(all_extracted_data)
(line 944) and build the graph (line 983). -/
def postExtractionStage (db : GraphDb) (clear_existing : Bool)
    (merged_data_var : Option ExtractionResult)
    (all_extracted_data : List ExtractionResult) :
    Except PyErr (List BuildEvent) :=
  match merged_data_var with
  | none => .error .unboundLocalMergedData
  | some md =>
    if md.entities.isEmpty && md.relationships.isEmpty then .ok []
    else build_graph db (merge_extracted_data all_extracted_data) clear_existing

/-- The post-extraction stage as run by the script: merged_data is unbound
at line 937, and the except handler at lines 1014-1017 catches the raised
error, prints it, and lets the function return with no graph writes. -/
def process_document_post (db : GraphDb) (clear_existing : Bool)
    (all_extracted_data : List ExtractionResult) : List BuildEvent :=
  match postExtractionStage db clear_existing none all_extracted_data with
  | .error _ => []
  | .ok evs => evs

/-! ## Rule-based duplicate entity-type detection
(neo4j_9-entity-duplicate-detection.py, lines 425-509)

The narrative fields (reasoning, risks, property/relationship handling) are
rendered prose and are omitted; duplicate_types and the keep_type
recommendation are kept. -/

/-- Python str.lower() on an ASCII character. -/
def pyLowerChar (c : Char) : Char :=
  if 65 ≤ c.toNat ∧ c.toNat ≤ 90 then Char.ofNat (c.toNat + 32) else c

/-- Python str.lower() (the scripts' labels are ASCII). -/
def pyLower (s : String) : String :=
  String.mk (s.toList.map pyLowerChar)

/-- One row of get_graph_statistics()["node_labels"]. -/
structure NodeLabelInfo where
  label : String
  count : Nat
deriving Repr, DecidableEq

/-- Insert a label under its lowercase key, preserving Python dict insertion
order and appending to an existing key's list. -/
def addLabelToMap (m : List (String × List String)) (k : String)
    (lab : String) : List (String × List String) :=
  match m with
  | [] => [(k, [lab])]
  | (k0, ls) :: rest =>
    if k0 = k then (k0, ls ++ [lab]) :: rest
    else (k0, ls) :: addLabelToMap rest k lab

/-- The grouping dict built at lines 432-438 (and again at 463-469):
label.lower() to the list of labels with that lowercase form, in insertion
order. -/
def groupByLower (labels : List String) : List (String × List String) :=
  labels.foldl (fun m lab => addLabelToMap m (pyLower lab) lab) []

/-- A produced duplicate-type group: its member list and the recommended
type to keep. -/
structure DuplicateTypeGroup where
  duplicate_types : List String
  keep_type : String
deriving Repr, DecidableEq

/-- find_case_insensitive_duplicates (lines 425-455) applied to the label
list: keep the case-variant groups with more than one member;
keep_type = variants[0]. -/
def find_case_insensitive_duplicates (labels : List String) :
    List DuplicateTypeGroup :=
  (groupByLower labels).filterMap
    (fun kv =>
      if kv.2.length > 1 then
        some { duplicate_types := kv.2, keep_type := kv.2.headD "" }
      else none)

/-- next((item.count for item in node_labels if item.label == x), 0):
the count of the first matching label row, defaulting to 0 (line 479). -/
def countOf (node_labels : List NodeLabelInfo) (x : String) : Nat :=
  match node_labels.find? (fun item => item.label == x) with
  | some item => item.count
  | none => 0

/-- Python max(xs, key=f): the first element attaining the maximum
(later elements replace only on strictly greater key). -/
def pyMaxBy (f : String → Nat) : List String → String
  | [] => ""
  | x :: rest => rest.foldl (fun best y => if f y > f best then y else best) x

/-- Python min(xs, key=f): the first element attaining the minimum. -/
def pyMinBy (f : String → Nat) : List String → String
  | [] => ""
  | x :: rest => rest.foldl (fun best y => if f y < f best then y else best) x

/-- The singular/plural rule of lines 487-493: every ordered pair of
distinct labels where one lowercased is the other lowercased plus "s"
(both orders of a pair are appended). -/
def singularPluralPairs (labels : List String) : List (List String) :=
  (labels.map
    (fun l1 =>
      labels.filterMap
        (fun l2 =>
          if l1 ≠ l2 ∧
              (pyLower l1 ++ "s" = pyLower l2 ∨ pyLower l2 ++ "s" = pyLower l1)
          then some [l1, l2]
          else none))).flatten

/-- prefilter_duplicate_entity_types (lines 457-509): case-variation groups
(keep the most populous member, first on ties) followed by singular/plural
pairs (keep the shorter member, first on ties). -/
def prefilter_duplicate_entity_types (node_labels : List NodeLabelInfo) :
    List DuplicateTypeGroup :=
  let labels := node_labels.map NodeLabelInfo.label
  let caseGroups :=
    (groupByLower labels).filterMap
      (fun kv =>
        if kv.2.length > 1 then
          some { duplicate_types := kv.2,
                 keep_type := pyMaxBy (countOf node_labels) kv.2 }
        else none)
  let pluralGroups :=
    (singularPluralPairs labels).map
      (fun pair =>
        { duplicate_types := pair, keep_type := pyMinBy String.length pair })
  caseGroups ++ pluralGroups

/-! ## execute_resolution_plan (neo4j_9-entity-duplicate-detection.py,
lines 1085-1389), full-plan path (group_idx = None)

The graph store is an oracle giving each query's success and row count; the
interactive operator is an oracle answering each y/n prompt, keyed by the
position of the plan entry, the stage and the step index.  The embedding
returns, for each executed plan entry, its recorded group result and the
list of Cypher queries actually issued for it. -/

/-- A pre- or post-merge validation step dict. -/
structure VStep where
  query : Option String
  success_criteria : Option String
deriving Repr, DecidableEq

/-- A merge-operation step dict. -/
structure OpStep where
  query : Option String
  requires_confirmation : Option Bool
deriving Repr, DecidableEq

/-- One element of resolution_plan. -/
structure PlanEntry where
  group_id : Option String
  pre_merge_validation : List VStep
  merge_operations : List OpStep
  post_merge_validation : List VStep
deriving Repr, DecidableEq

/-- One element of groups. -/
structure PlanGroup where
  group_id : Option String
  group_summary : Option String
deriving Repr, DecidableEq

/-- A ResolutionPlan document. -/
structure ResolutionPlan where
  groups : List PlanGroup
  resolution_plan : List PlanEntry
deriving Repr, DecidableEq

/-- The three prompting stages of a plan entry's execution. -/
inductive Stage where
  | preVal
  | mergeOp
  | postVal
deriving Repr, DecidableEq

/-- Oracle for execute_cypher_query: success flag and returned row count
(a failed query returns [] and False, lines 1070-1083). -/
structure CypherDb where
  ok : String → Bool
  rows : String → Nat

/-- A recorded validation step result (pre or post), as appended to the
group result; user_approved is present only when the prompt was reached. -/
structure ValRec where
  step : Nat
  query : String
  success : Bool
  result_count : Nat
  user_approved : Option Bool
deriving Repr, DecidableEq

/-- A recorded merge-operation result. -/
structure OpRec where
  step : Nat
  query : String
  requires_confirmation : Bool
  executed : Bool
  success : Bool
  records_affected : Nat
  user_approved : Option Bool
  user_skipped : Bool
deriving Repr, DecidableEq

/-- The per-group execution record. -/
structure GroupResult where
  group_id : Option String
  status : String
  pre_validation_results : List ValRec
  operation_results : List OpRec
  post_validation_results : List ValRec
deriving Repr, DecidableEq

/-- Outcome of a validation loop: records so far, queries issued, and how
the loop ended. -/
inductive ValOutcome where
  | passed (recs : List ValRec) (queries : List String)
  | failedQuery (recs : List ValRec) (queries : List String)
  | rejectedByUser (recs : List ValRec) (queries : List String)
deriving Repr, DecidableEq

/-- The pre/post-merge validation loop (lines 1152-1207 and 1291-1346):
run the step's query first; a failed query ends the loop with no prompt; a
successful query is followed by the y/n prompt; a no answer ends the loop;
otherwise continue. -/
def runValLoop (db : CypherDb) (approve : Nat → Bool) :
    Nat → List VStep → ValOutcome
  | _, [] => .passed [] []
  | j, v :: rest =>
    let q := v.query.getD ""
    let okq := db.ok q
    let rcd0 : ValRec :=
      { step := j + 1, query := q, success := okq,
        result_count := db.rows q, user_approved := none }
    if okq then
      let proceed := approve j
      let rcd1 : ValRec := { rcd0 with user_approved := some proceed }
      if proceed then
        match runValLoop db approve (j + 1) rest with
        | .passed recs qs => .passed (rcd1 :: recs) (q :: qs)
        | .failedQuery recs qs => .failedQuery (rcd1 :: recs) (q :: qs)
        | .rejectedByUser recs qs => .rejectedByUser (rcd1 :: recs) (q :: qs)
      else .rejectedByUser [rcd1] [q]
    else .failedQuery [rcd0] [q]

/-- Outcome of the merge-operation loop. -/
inductive OpOutcome where
  | completed (recs : List OpRec) (queries : List String)
  | opRejected (recs : List OpRec) (queries : List String)
  | opFailed (recs : List OpRec) (queries : List String)
deriving Repr, DecidableEq

/-- The merge-operation loop (lines 1220-1278): a confirmation-requiring
operation prompts before running; a no answer records the operation as
skipped and ends the loop with the query never issued; otherwise the query
runs, and a failure ends the loop. -/
def runOpLoop (db : CypherDb) (approve : Nat → Bool) :
    Nat → List OpStep → OpOutcome
  | _, [] => .completed [] []
  | j, op :: rest =>
    let q := op.query.getD ""
    let rc := op.requires_confirmation.getD true
    if rc ∧ approve j = false then
      .opRejected
        [{ step := j + 1, query := q, requires_confirmation := rc,
           executed := false, success := false, records_affected := 0,
           user_approved := some false, user_skipped := true }] []
    else
      let okq := db.ok q
      let rcd : OpRec :=
        { step := j + 1, query := q, requires_confirmation := rc,
          executed := true, success := okq,
          records_affected := if okq then db.rows q else 0,
          user_approved := if rc then some true else none,
          user_skipped := false }
      if okq then
        match runOpLoop db approve (j + 1) rest with
        | .completed recs qs => .completed (rcd :: recs) (q :: qs)
        | .opRejected recs qs => .opRejected (rcd :: recs) (q :: qs)
        | .opFailed recs qs => .opFailed (rcd :: recs) (q :: qs)
      else .opFailed [rcd] [q]

/-- Execution of one plan entry against its matched group (lines
1138-1362): pre-merge validation, then merge operations, then post-merge
validation, each stage halting the entry at the first failure or rejection
with the corresponding terminal status. -/
def runEntry (db : CypherDb) (ans : Nat → Stage → Nat → Bool) (i : Nat)
    (entry : PlanEntry) (group : PlanGroup) : GroupResult × List String :=
  match runValLoop db (fun j => ans i Stage.preVal j) 0
      entry.pre_merge_validation with
  | .failedQuery recs qs =>
    ({ group_id := group.group_id, status := "pre_validation_failed",
       pre_validation_results := recs, operation_results := [],
       post_validation_results := [] }, qs)
  | .rejectedByUser recs qs =>
    ({ group_id := group.group_id, status := "pre_validation_rejected",
       pre_validation_results := recs, operation_results := [],
       post_validation_results := [] }, qs)
  | .passed precs pqs =>
    match runOpLoop db (fun j => ans i Stage.mergeOp j) 0
        entry.merge_operations with
    | .opRejected orecs oqs =>
      ({ group_id := group.group_id, status := "operation_rejected",
         pre_validation_results := precs, operation_results := orecs,
         post_validation_results := [] }, pqs ++ oqs)
    | .opFailed orecs oqs =>
      ({ group_id := group.group_id, status := "operation_failed",
         pre_validation_results := precs, operation_results := orecs,
         post_validation_results := [] }, pqs ++ oqs)
    | .completed orecs oqs =>
      match runValLoop db (fun j => ans i Stage.postVal j) 0
          entry.post_merge_validation with
      | .failedQuery recs qs =>
        ({ group_id := group.group_id, status := "post_validation_failed",
           pre_validation_results := precs, operation_results := orecs,
           post_validation_results := recs }, pqs ++ oqs ++ qs)
      | .rejectedByUser recs qs =>
        ({ group_id := group.group_id, status := "post_validation_rejected",
           pre_validation_results := precs, operation_results := orecs,
           post_validation_results := recs }, pqs ++ oqs ++ qs)
      | .passed recs qs =>
        ({ group_id := group.group_id, status := "success",
           pre_validation_results := precs, operation_results := orecs,
           post_validation_results := recs }, pqs ++ oqs ++ qs)

/-- group_lookup at line 1126 is a dict comprehension keyed by
g.get("group_id"); on duplicate keys the later group overwrites, so lookup
returns the last matching group. -/
def lookupGroup (groups : List PlanGroup) (gid : Option String) :
    Option PlanGroup :=
  (groups.filter (fun g => g.group_id == gid)).getLast?

/-- The enumerate(plans) loop of lines 1128-1362: an entry whose group_id
has no match in groups prints a warning and is skipped (lines 1131-1133);
a matched entry contributes its group result and its issued queries. -/
def execLoop (db : CypherDb) (ans : Nat → Stage → Nat → Bool)
    (groups : List PlanGroup) :
    Nat → List PlanEntry → List (GroupResult × List String)
  | _, [] => []
  | i, p :: rest =>
    match lookupGroup groups p.group_id with
    | none => execLoop db ans groups (i + 1) rest
    | some g => runEntry db ans i p g :: execLoop db ans groups (i + 1) rest

/-- Final tallies of execute_resolution_plan.  The incremental counters of
the source increment skipped on the two pre-validation terminal statuses,
failed on the two operation terminal statuses, successful on success, and
nothing on the post-validation terminal statuses, so they equal these
counts over the final statuses. -/
structure ExecResults where
  total_groups : Nat
  successful_groups : Nat
  failed_groups : Nat
  skipped_groups : Nat
  group_results : List GroupResult
deriving Repr, DecidableEq

/-- A status counted by skipped_groups. -/
def statusSkipped (s : String) : Bool :=
  s == "pre_validation_failed" || s == "pre_validation_rejected"

/-- A status counted by failed_groups. -/
def statusFailedGroup (s : String) : Bool :=
  s == "operation_rejected" || s == "operation_failed"

/-- Return behaviour of execute_resolution_plan: the early False return for
a plan with an empty resolution_plan list (lines 1091-1093), or the
assembled results with the final return value
failed_groups <= 0 (line 1385). -/
inductive ExecOutcome where
  | noPlan
  | executed (res : ExecResults) (queries : List String) (ret : Bool)
deriving Repr, DecidableEq

/-- execute_resolution_plan on the full plan (group_idx = None). -/
def execute_resolution_plan (db : CypherDb)
    (ans : Nat → Stage → Nat → Bool) (plan : ResolutionPlan) : ExecOutcome :=
  if plan.resolution_plan.isEmpty then .noPlan
  else
    let contribs := execLoop db ans plan.groups 0 plan.resolution_plan
    let grs := contribs.map Prod.fst
    let fails := grs.countP (fun gr => statusFailedGroup gr.status)
    .executed
      { total_groups := plan.groups.length,
        successful_groups := grs.countP (fun gr => gr.status == "success"),
        failed_groups := fails,
        skipped_groups := grs.countP (fun gr => statusSkipped gr.status),
        group_results := grs }
      (contribs.map Prod.snd).flatten
      (fails == 0)

/-- The group results recorded by a run of execute_resolution_plan. -/
def execGroupResults (db : CypherDb) (ans : Nat → Stage → Nat → Bool)
    (plan : ResolutionPlan) : List GroupResult :=
  match execute_resolution_plan db ans plan with
  | .noPlan => []
  | .executed res _ _ => res.group_results

/-- The Cypher queries issued by a run of execute_resolution_plan. -/
def execQueries (db : CypherDb) (ans : Nat → Stage → Nat → Bool)
    (plan : ResolutionPlan) : List String :=
  match execute_resolution_plan db ans plan with
  | .noPlan => []
  | .executed _ qs _ => qs

/-- The contribution of one enumerated plan entry: nothing when its
group_id has no match in groups, else the entry's run. -/
def entryContrib (db : CypherDb) (ans : Nat → Stage → Nat → Bool)
    (groups : List PlanGroup) (i : Nat) (p : PlanEntry) :
    Option (GroupResult × List String) :=
  (lookupGroup groups p.group_id).map (fun g => runEntry db ans i p g)

/-- The boolean returned by execute_resolution_plan (False for an empty
plan, else failed_groups <= 0). -/
def execReturns (db : CypherDb) (ans : Nat → Stage → Nat → Bool)
    (plan : ResolutionPlan) : Bool :=
  match execute_resolution_plan db ans plan with
  | .noPlan => false
  | .executed _ _ ret => ret

/-- A graph-store oracle on which every Cypher query succeeds with one
row. -/
def allOkCypher : CypherDb :=
  { ok := fun _ => true, rows := fun _ => 1 }

/-- An operator who answers yes to every prompt. -/
def yesAns : Nat → Stage → Nat → Bool := fun _ _ _ => true

/-- An operator who answers no to every prompt. -/
def noAns : Nat → Stage → Nat → Bool := fun _ _ _ => false

/-- A group with id g1. -/
def goodGroup : PlanGroup :=
  { group_id := some "g1", group_summary := some "merge person into Person" }

/-- A plan entry referencing the id missing, absent from groups, with one
unconfirmed merge operation. -/
def orphanEntry : PlanEntry :=
  { group_id := some "missing",
    pre_merge_validation := [],
    merge_operations :=
      [{ query := some "MERGE-ORPHAN", requires_confirmation := some false }],
    post_merge_validation := [] }

/-- A plan entry matching goodGroup with one unconfirmed merge operation. -/
def goodEntry : PlanEntry :=
  { group_id := some "g1",
    pre_merge_validation := [],
    merge_operations :=
      [{ query := some "MERGE-OK", requires_confirmation := some false }],
    post_merge_validation := [] }

/-- A ResolutionPlan whose first resolution_plan entry references a
group_id with no matching entry in groups. -/
def orphanPlan : ResolutionPlan :=
  { groups := [goodGroup], resolution_plan := [orphanEntry, goodEntry] }

/-- A plan entry matching goodGroup with one pre-merge validation step and
one unconfirmed merge operation. -/
def rejectEntry : PlanEntry :=
  { group_id := some "g1",
    pre_merge_validation :=
      [{ query := some "CHECK-1", success_criteria := some "no conflicts" }],
    merge_operations :=
      [{ query := some "MERGE-OK", requires_confirmation := some false }],
    post_merge_validation := [] }

/-- A one-group, one-entry ResolutionPlan used to exercise a pre-merge
validation rejection. -/
def rejectPlan : ResolutionPlan :=
  { groups := [goodGroup], resolution_plan := [rejectEntry] }

/-! ## Exit codes (neo4j_9 main, lines 1544-1745; adaptive script,
lines 1014-1017 and 1028-1116)

Neither script calls sys.exit: every exception raised inside main (or
process_document_to_graph) is caught and printed, and the interpreter then
exits with code 0. -/

/-- initialize_neo4j_connection (lines 26-41): raises on connection
failure. -/
def initialize_neo4j_connection (connectOk : Bool) : Except PyErr Unit :=
  if connectOk then .ok () else .error (.dbError "neo4j connect")

/-- initialize_llm (lines 43-82): raises when every candidate model
fails. -/
def initialize_llm (llmOk : Bool) : Except PyErr Unit :=
  if llmOk then .ok () else .error (.dbError "all LLM models failed")

/-- neo4j_9 main (lines 1544-1735): the connection and LLM failures are
caught at lines 1573-1578 and 1581-1586, printed, and main returns
normally; otherwise the selected mode body runs (itself an arbitrary
outcome). -/
def neo4j9_main (connectOk llmOk : Bool) (body : Except PyErr Unit) :
    Except PyErr Unit :=
  match initialize_neo4j_connection connectOk with
  | .error _ => .ok ()
  | .ok _ =>
    match initialize_llm llmOk with
    | .error _ => .ok ()
    | .ok _ => body

/-- The neo4j_9 process exit code: the module-level wrapper (lines
1737-1745) catches KeyboardInterrupt and Exception and prints; the script
never calls sys.exit, so the interpreter exits 0 whether main returned or
raised. -/
def neo4j9_exit_code (connectOk llmOk : Bool) (body : Except PyErr Unit) :
    Nat :=
  match neo4j9_main connectOk llmOk body with
  | .ok _ => 0
  | .error _ => 0

/-- The adaptive script's process_document_to_graph wraps its whole body in
try/except Exception (lines 737, 1014-1017): any raised error is printed
and the function returns normally. -/
def process_document_to_graph_outcome (body : Except PyErr Unit) :
    Except PyErr Unit :=
  match body with
  | .error _ => .ok ()
  | .ok _ => .ok ()

/-- The adaptive script's exit code: the main block catches
KeyboardInterrupt (line 1103) and never calls sys.exit, so the process
exits 0. -/
def adaptive_exit_code (body : Except PyErr Unit) : Nat :=
  match process_document_to_graph_outcome body with
  | .ok _ => 0
  | .error _ => 0

/-! ## Concrete values used by counterexamples and witnesses -/

/-- A relationship whose merge key renders as a-b-c-d. -/
def collideRelA : Relationship :=
  { source := some "a", target := some "d", rtype := some "b-c", props := [] }

/-- A relationship with a different (source, type, target) triple whose
merge key also renders as a-b-c-d. -/
def collideRelB : Relationship :=
  { source := some "a-b", target := some "d", rtype := some "c", props := [] }

/-- A single-chunk input containing collideRelA once and collideRelB
twice. -/
def collideInput : List ExtractionResult :=
  [{ entities := [], relationships := [collideRelA, collideRelB, collideRelB] }]

/-- A chunk result whose single entity has id x and name A. -/
def orderResA : ExtractionResult :=
  { entities :=
      [{ eid := some "x", etype := some "Person", ename := some "A",
         props := [] }],
    relationships := [] }

/-- A chunk result whose single entity has the same id x but name B. -/
def orderResB : ExtractionResult :=
  { entities :=
      [{ eid := some "x", etype := some "Person", ename := some "B",
         props := [] }],
    relationships := [] }

/-- Completion events of a two-chunk run finishing in index order. -/
def orderRun1 : List (Nat × Option ExtractionResult) :=
  [(0, some orderResA), (1, some orderResB)]

/-- The same per-chunk results completing in the opposite order. -/
def orderRun2 : List (Nat × Option ExtractionResult) :=
  [(1, some orderResB), (0, some orderResA)]

/-- A relationship whose target id is missing. -/
def skipRel : Relationship :=
  { source := some "a", target := none, rtype := some "KNOWS", props := [] }

/-- A relationship with both endpoint ids present. -/
def goodRel : Relationship :=
  { source := some "a", target := some "b", rtype := some "KNOWS", props := [] }

/-- A graph-store oracle on which every query succeeds. -/
def allOkDb : GraphDb :=
  { clearOk := true, entityWriteOk := fun _ => true, relWriteOk := fun _ => true }

/-- A merged delta containing one missing-reference relationship followed by
one complete relationship. -/
def skipDelta : ExtractionResult :=
  { entities := [], relationships := [skipRel, goodRel] }

end DocGraph

namespace DocGraph

/-- Keys of the dedup output are distinct and avoid the seen set. -/
theorem dedupLoop_keys_nodup {α κ : Type} [DecidableEq κ] (key : α → κ)
    (l : List α) (seen : List κ) :
    ((dedupLoop key l seen).map key).Nodup ∧
      ∀ k ∈ (dedupLoop key l seen).map key, k ∉ seen := by
  induction l generalizing seen with
  | nil => simp [dedupLoop]
  | cons x rest ih =>
    by_cases hx : key x ∈ seen
    · simpa [dedupLoop, hx] using ih seen
    · have h := ih (key x :: seen)
      refine ⟨?_, ?_⟩
      · simp only [dedupLoop, hx, if_false, List.map_cons, List.nodup_cons]
        refine ⟨fun hmem => ?_, h.1⟩
        exact (h.2 _ hmem) (List.mem_cons_self _ _)
      · intro k hk
        simp only [dedupLoop, hx, if_false, List.map_cons, List.mem_cons] at hk
        rcases hk with rfl | hk
        · exact hx
        · intro hks
          exact (h.2 _ hk) (List.mem_cons_of_mem _ hks)

/-- Every kept item is the first occurrence of its key in the input. -/
theorem dedupLoop_first_occurrence {α κ : Type} [DecidableEq κ] (key : α → κ)
    (l : List α) (seen : List κ) :
    ∀ x ∈ dedupLoop key l seen,
      key x ∉ seen ∧ l.find? (fun y => decide (key y = key x)) = some x := by
  induction l generalizing seen with
  | nil => simp [dedupLoop]
  | cons a rest ih =>
    intro x hx
    by_cases ha : key a ∈ seen
    · simp only [dedupLoop, ha, if_true] at hx
      obtain ⟨hns, hfind⟩ := ih seen x hx
      have hne : key a ≠ key x := fun h => hns (h ▸ ha)
      refine ⟨hns, ?_⟩
      rw [List.find?_cons]
      simp [hne, hfind]
    · simp only [dedupLoop, ha, if_false, List.mem_cons] at hx
      rcases hx with rfl | hx
      · refine ⟨ha, ?_⟩
        rw [List.find?_cons]
        simp
      · obtain ⟨hns, hfind⟩ := ih (key a :: seen) x hx
        have hna : key x ≠ key a := by
          intro h
          exact hns (h ▸ List.mem_cons_self _ _)
        refine ⟨fun hmem => hns (List.mem_cons_of_mem _ hmem), ?_⟩
        have hd : decide (key a = key x) = false :=
          decide_eq_false (fun h => hna h.symm)
        rw [List.find?_cons, hd]
        exact hfind

/-- Every input key not in the seen set survives into the output. -/
theorem dedupLoop_covers {α κ : Type} [DecidableEq κ] (key : α → κ)
    (l : List α) (seen : List κ) :
    ∀ x ∈ l, key x ∈ seen ∨ key x ∈ (dedupLoop key l seen).map key := by
  induction l generalizing seen with
  | nil => simp
  | cons a rest ih =>
    intro x hx
    rcases List.mem_cons.mp hx with rfl | hx
    · by_cases ha : key x ∈ seen
      · exact Or.inl ha
      · right
        simp [dedupLoop, ha]
    · by_cases ha : key a ∈ seen
      · rcases ih seen x hx with h | h
        · exact Or.inl h
        · right
          simpa [dedupLoop, ha] using h
      · rcases ih (key a :: seen) x hx with h | h
        · rcases List.mem_cons.mp h with heq | hs
          · right
            simp [dedupLoop, ha, heq]
          · exact Or.inl hs
        · right
          simp only [dedupLoop, ha, if_false, List.map_cons, List.mem_cons]
          exact Or.inr h

/-- Claim C1: for every list of per-chunk ExtractionResults given to the
merger, the merged output contains each distinct entity id exactly once
(the kept ids are pairwise distinct and every input id is present), and the
entity record kept for an id is the first occurrence in list order, i.e.
the one from the lowest chunk index containing that id; later entities with
the same id are dropped with no property reconciliation. -/
theorem merge_entities_each_id_once_first_occurrence_wins
    (dataList : List ExtractionResult) :
    (((merge_extracted_data dataList).entities.map Entity.eid).Nodup) ∧
    (∀ e ∈ allEntities dataList,
      e.eid ∈ (merge_extracted_data dataList).entities.map Entity.eid) ∧
    (∀ e ∈ (merge_extracted_data dataList).entities,
      (allEntities dataList).find? (fun y => decide (y.eid = e.eid)) = some e) := by
  refine ⟨(dedupLoop_keys_nodup Entity.eid (allEntities dataList) []).1, ?_, ?_⟩
  · intro e he
    rcases dedupLoop_covers Entity.eid (allEntities dataList) [] e he with h | h
    · exact absurd h (List.not_mem_nil _)
    · exact h
  · intro e he
    exact (dedupLoop_first_occurrence Entity.eid (allEntities dataList) [] e he).2

/-- Claim C4 counterexample: the merger keys relationships by the joined
string source-type-target, so the pair collideRelB, collideRelB of input
relationships with equal (source, type, target) triples has zero survivors:
the earlier relationship collideRelA, whose triple differs, shares the
string a-b-c-d and is the only one kept.  The claim's "exactly one
survives" is false at this input. -/
theorem merge_relationships_equal_triple_pair_zero_survivors :
    relKey collideRelA = relKey collideRelB ∧
    ¬(collideRelA.source = collideRelB.source ∧
      collideRelA.rtype = collideRelB.rtype ∧
      collideRelA.target = collideRelB.target) ∧
    collideRelB ∈ allRelationships collideInput ∧
    (allRelationships collideInput).count collideRelB = 2 ∧
    (merge_extracted_data collideInput).relationships = [collideRelA] ∧
    collideRelB ∉ (merge_extracted_data collideInput).relationships := by
  decide

/-- Claim C4, amended: the merged delta contains pairwise distinct joined
string keys source-type-target (hence no two merged relationships share an
equal (source, type, target) triple), every input key is represented, and
each kept relationship is the first input occurrence of its key; among
input relationships with equal triples at most one survives, but the
survivor of a key may be an earlier relationship with a different triple
that collides on the joined string. -/
theorem merge_relationships_key_dedup_first_occurrence_wins
    (dataList : List ExtractionResult) :
    (((merge_extracted_data dataList).relationships.map relKey).Nodup) ∧
    (∀ r ∈ allRelationships dataList,
      relKey r ∈ (merge_extracted_data dataList).relationships.map relKey) ∧
    (∀ r ∈ (merge_extracted_data dataList).relationships,
      (allRelationships dataList).find?
        (fun y => decide (relKey y = relKey r)) = some r) ∧
    (∀ r1 ∈ (merge_extracted_data dataList).relationships,
      ∀ r2 ∈ (merge_extracted_data dataList).relationships,
        r1.source = r2.source → r1.rtype = r2.rtype → r1.target = r2.target →
          r1 = r2) := by
  have hnodup := (dedupLoop_keys_nodup relKey (allRelationships dataList) []).1
  refine ⟨hnodup, ?_, ?_, ?_⟩
  · intro r hr
    rcases dedupLoop_covers relKey (allRelationships dataList) [] r hr with h | h
    · exact absurd h (List.not_mem_nil _)
    · exact h
  · intro r hr
    exact (dedupLoop_first_occurrence relKey (allRelationships dataList) [] r hr).2
  · intro r1 h1 r2 h2 hs ht htg
    refine List.inj_on_of_nodup_map hnodup h1 h2 ?_
    unfold relKey
    rw [hs, ht, htg]

/-- writeStep preserves the slot-array length. -/
theorem writeStep_length (arr : List (Option ExtractionResult))
    (c : Nat × Option ExtractionResult) :
    (writeStep arr c).length = arr.length := by
  rcases c with ⟨i, _ | r⟩ <;> simp [writeStep]

/-- Folding writeStep preserves the slot-array length. -/
theorem foldl_writeStep_length (cs : List (Nat × Option ExtractionResult)) :
    ∀ arr, (cs.foldl writeStep arr).length = arr.length := by
  induction cs with
  | nil => intro arr; rfl
  | cons c cs ih =>
    intro arr
    rw [List.foldl_cons, ih, writeStep_length]

/-- A slot no completion writes to keeps its value. -/
theorem foldl_writeStep_get_of_not_mem
    (cs : List (Nat × Option ExtractionResult)) (j : Nat)
    (h : ∀ p ∈ cs, p.1 ≠ j) :
    ∀ arr, (cs.foldl writeStep arr).get? j = arr.get? j := by
  induction cs with
  | nil => intro arr; rfl
  | cons c cs ih =>
    intro arr
    rw [List.foldl_cons, ih (fun p hp => h p (List.mem_cons_of_mem _ hp))]
    rcases c with ⟨i, ro⟩
    have hij : i ≠ j := h ⟨i, ro⟩ (List.mem_cons_self _ _)
    cases ro with
    | none => rfl
    | some r =>
      show (arr.set i (some r)).get? j = arr.get? j
      rw [List.get?_eq_getElem?, List.get?_eq_getElem?]
      exact List.getElem?_set_ne hij

/-- With pairwise distinct completion indices, a slot within range ends with
the value of the unique completion for that index. -/
theorem foldl_writeStep_get (cs : List (Nat × Option ExtractionResult)) :
    ∀ (arr : List (Option ExtractionResult)) (j : Nat),
      (cs.map Prod.fst).Nodup → j < arr.length → arr.get? j = some none →
      (cs.foldl writeStep arr).get? j = some (slotVal cs j) := by
  induction cs with
  | nil =>
    intro arr j _ _ h0
    simpa [slotVal] using h0
  | cons c cs ih =>
    intro arr j hnd hj h0
    rcases c with ⟨i, ro⟩
    have hnd2 : i ∉ cs.map Prod.fst ∧ (cs.map Prod.fst).Nodup := by
      simpa [List.nodup_cons] using hnd
    rw [List.foldl_cons]
    by_cases hij : i = j
    · subst hij
      have hrest : ∀ p ∈ cs, p.1 ≠ i := by
        intro p hp hpj
        exact hnd2.1 (hpj ▸ List.mem_map_of_mem Prod.fst hp)
      rw [foldl_writeStep_get_of_not_mem cs i hrest]
      have hsv : slotVal ((i, ro) :: cs) i = ro := by
        simp [slotVal, List.find?_cons]
      rw [hsv]
      cases ro with
      | none => simpa [writeStep] using h0
      | some r =>
        show (arr.set i (some r)).get? i = some (some r)
        rw [List.get?_eq_getElem?]
        exact List.getElem?_set_eq_of_lt _ hj
    · have hstep : (writeStep arr (i, ro)).get? j = arr.get? j := by
        cases ro with
        | none => rfl
        | some r =>
          show (arr.set i (some r)).get? j = arr.get? j
          rw [List.get?_eq_getElem?, List.get?_eq_getElem?]
          exact List.getElem?_set_ne hij
      have hlen : (writeStep arr (i, ro)).length = arr.length :=
        writeStep_length arr (i, ro)
      have hsv : slotVal ((i, ro) :: cs) j = slotVal cs j := by
        simp [slotVal, List.find?_cons, hij]
      rw [hsv]
      exact ih (writeStep arr (i, ro)) j hnd2.2 (hlen ▸ hj) (hstep ▸ h0)

/-- With pairwise distinct indices, the value of a slot is invariant under
permuting the completion events. -/
theorem slotVal_perm (c1 c2 : List (Nat × Option ExtractionResult))
    (hperm : c1.Perm c2) (hnd : (c1.map Prod.fst).Nodup) (j : Nat) :
    slotVal c1 j = slotVal c2 j := by
  unfold slotVal
  by_cases hex : ∃ p ∈ c1, p.1 = j
  · obtain ⟨p, hp, hpj⟩ := hex
    have huniq : ∀ q ∈ c1, q.1 = j → q = p := fun q hq hqj =>
      List.inj_on_of_nodup_map hnd hq hp (by rw [hqj, hpj])
    have h1 : c1.find? (fun p => p.1 == j) = some p := by
      have hs : (c1.find? (fun p => p.1 == j)).isSome :=
        List.find?_isSome.mpr ⟨p, hp, by simp [hpj]⟩
      obtain ⟨q, hq⟩ := Option.isSome_iff_exists.mp hs
      have hqm : q ∈ c1 := List.mem_of_find?_eq_some hq
      have hqj : q.1 = j := by simpa using List.find?_some hq
      rw [hq, huniq q hqm hqj]
    have h2 : c2.find? (fun p => p.1 == j) = some p := by
      have hs : (c2.find? (fun p => p.1 == j)).isSome :=
        List.find?_isSome.mpr ⟨p, hperm.mem_iff.mp hp, by simp [hpj]⟩
      obtain ⟨q, hq⟩ := Option.isSome_iff_exists.mp hs
      have hqm : q ∈ c1 := hperm.mem_iff.mpr (List.mem_of_find?_eq_some hq)
      have hqj : q.1 = j := by simpa using List.find?_some hq
      rw [hq, huniq q hqm hqj]
    rw [h1, h2]
  · have h1 : c1.find? (fun p => p.1 == j) = none :=
      List.find?_eq_none.mpr fun x hx => by
        simpa using fun hxj => hex ⟨x, hx, hxj⟩
    have h2 : c2.find? (fun p => p.1 == j) = none :=
      List.find?_eq_none.mpr fun x hx => by
        simpa using fun hxj => hex ⟨x, hperm.mem_iff.mpr hx, hxj⟩
    rw [h1, h2]

/-- Claim C2, amended: in the adaptive script's parallel path, each result
is written into the slot indexed by its chunk position, so the list handed
to the merger and the merged delta are identical for any two completion
orders of the same per-chunk results; in the parallel script neo4j_2b.i the
results are instead appended in completion order, so its merged delta can
depend on completion order (see the counterexample). -/
theorem adaptive_parallel_collection_completion_order_independent
    (n : Nat) (c1 c2 : List (Nat × Option ExtractionResult))
    (hperm : c1.Perm c2) (hnd : (c1.map Prod.fst).Nodup)
    (hidx : ∀ p ∈ c1, p.1 < n) :
    collectParallelAdaptive n c1 = collectParallelAdaptive n c2 ∧
    merge_extracted_data (collectParallelAdaptive n c1) =
      merge_extracted_data (collectParallelAdaptive n c2) := by
  have hnd' : (c2.map Prod.fst).Nodup := ((hperm.map Prod.fst).nodup_iff).mp hnd
  have hslots : writeSlots n c1 = writeSlots n c2 := by
    apply List.ext
    intro j
    by_cases hj : j < n
    · have hrep : (List.replicate n (none : Option ExtractionResult)).get? j =
          some none := by
        simp [List.get?_eq_getElem?, List.getElem?_replicate, hj]
      have hlen : j < (List.replicate n (none : Option ExtractionResult)).length := by
        simpa using hj
      rw [show writeSlots n c1 = c1.foldl writeStep (List.replicate n none) from rfl,
        show writeSlots n c2 = c2.foldl writeStep (List.replicate n none) from rfl,
        foldl_writeStep_get c1 _ j hnd hlen hrep,
        foldl_writeStep_get c2 _ j hnd' hlen hrep,
        slotVal_perm c1 c2 hperm hnd j]
    · have hl1 : (writeSlots n c1).length = n := by
        simpa using foldl_writeStep_length c1 (List.replicate n none)
      have hl2 : (writeSlots n c2).length = n := by
        simpa using foldl_writeStep_length c2 (List.replicate n none)
      rw [List.get?_eq_none.mpr (by omega), List.get?_eq_none.mpr (by omega)]
  have hcol : collectParallelAdaptive n c1 = collectParallelAdaptive n c2 := by
    unfold collectParallelAdaptive
    rw [hslots]
  exact ⟨hcol, by rw [hcol]⟩

/-- Witness for the amended C2 theorem at a concrete two-chunk run. -/
theorem adaptive_parallel_collection_completion_order_independent_witness :
    collectParallelAdaptive 2 [(0, some orderResA), (1, none)] =
      collectParallelAdaptive 2 [(1, none), (0, some orderResA)] ∧
    merge_extracted_data
        (collectParallelAdaptive 2 [(0, some orderResA), (1, none)]) =
      merge_extracted_data
        (collectParallelAdaptive 2 [(1, none), (0, some orderResA)]) :=
  adaptive_parallel_collection_completion_order_independent 2
    [(0, some orderResA), (1, none)] [(1, none), (0, some orderResA)]
    (by decide) (by decide) (by decide)

/-- Claim C2 counterexample: in the parallel script neo4j_2b.i the
completed results are appended in completion order, so two runs over the
same chunks whose extraction calls return the same per-chunk results but
complete in different orders hand different lists to the merger and produce
different merged deltas. -/
theorem parallel2b_merge_depends_on_completion_order :
    orderRun1.Perm orderRun2 ∧
    (orderRun1.map Prod.fst).Nodup ∧
    slotVal orderRun1 0 = slotVal orderRun2 0 ∧
    slotVal orderRun1 1 = slotVal orderRun2 1 ∧
    merge_extracted_data (collectParallel2b orderRun1) ≠
      merge_extracted_data (collectParallel2b orderRun2) := by
  decide

/-- Claim C3: in the adaptive pipeline script, every invocation of
process_document_to_graph that reaches the post-extraction stage reads the
local merged_data before its assignment (the emptiness check at line 937
precedes the merge call at line 944), so an UnboundLocalError (a subclass
of NameError) is raised, caught and printed by the function's top-level
exception handler; the merge, graph-build and verification stages are
unreachable and the script never writes a delta to the graph store. -/
theorem adaptive_post_extraction_unbound_local_no_writes
    (db : GraphDb) (clear_existing : Bool)
    (all_extracted_data : List ExtractionResult) :
    postExtractionStage db clear_existing none all_extracted_data =
      .error .unboundLocalMergedData ∧
    process_document_post db clear_existing all_extracted_data = [] :=
  ⟨rfl, rfl⟩

/-- Claim C10 counterexample: a neo4j_9 run whose graph-store connection
fails exits with code 0 — the connection error is caught at lines 1573-1578
and main returns normally, and the script never calls sys.exit — refuting
the claim that a run always exits non-zero on an unrecoverable setup error
such as failure to connect to the graph store. -/
theorem neo4j9_connect_failure_exits_zero :
    initialize_neo4j_connection false = .error (.dbError "neo4j connect") ∧
    neo4j9_exit_code false true (.ok ()) = 0 :=
  ⟨rfl, rfl⟩

/-- Claim C10, amended: every run of the cited scripts exits with code 0 —
on completion (a run with no results is reported as a warning, not a
failure) and equally on unrecoverable setup errors such as failure to
connect to the graph store, which are caught and printed; the cited scripts
never produce a non-zero exit code through their own error handling. -/
theorem scripts_always_exit_zero (connectOk llmOk : Bool)
    (body body2 : Except PyErr Unit) :
    neo4j9_exit_code connectOk llmOk body = 0 ∧
    adaptive_exit_code body2 = 0 := by
  constructor
  · unfold neo4j9_exit_code
    cases neo4j9_main connectOk llmOk body <;> rfl
  · unfold adaptive_exit_code process_document_to_graph_outcome
    cases body2 <;> rfl

/-- Membership of an entity-write query event in the entity loop. -/
theorem entityLoop_mem_query (db : GraphDb) (es : List Entity) (e : Entity)
    (b : Bool) :
    BuildEvent.entityQuery e b ∈ entityLoop db es ↔
      e ∈ es ∧ b = db.entityWriteOk e := by
  induction es with
  | nil => simp [entityLoop]
  | cons x rest ih =>
    simp only [entityLoop, List.mem_append, ih, List.mem_cons]
    by_cases hx : db.entityWriteOk x <;> simp [hx] <;> aesop

/-- Membership of an entity-write error log in the entity loop. -/
theorem entityLoop_mem_log (db : GraphDb) (es : List Entity) (e : Entity) :
    BuildEvent.entityErrorLog e ∈ entityLoop db es ↔
      e ∈ es ∧ db.entityWriteOk e = false := by
  induction es with
  | nil => simp [entityLoop]
  | cons x rest ih =>
    simp only [entityLoop, List.mem_append, ih, List.mem_cons]
    by_cases hx : db.entityWriteOk x <;> simp [hx] <;> aesop

/-- Every event of the entity loop is an entity event. -/
theorem entityLoop_shapes (db : GraphDb) (es : List Entity) :
    ∀ ev ∈ entityLoop db es,
      (∃ e b, ev = BuildEvent.entityQuery e b) ∨
        ∃ e, ev = BuildEvent.entityErrorLog e := by
  induction es with
  | nil => simp [entityLoop]
  | cons x rest ih =>
    intro ev hev
    simp only [entityLoop, List.mem_append] at hev
    rcases hev with hev | hev
    · by_cases hx : db.entityWriteOk x <;> simp [hx] at hev <;> aesop
    · exact ih ev hev

/-- Membership of a relationship-write query event in the relationship
loop: only relationships with both endpoint ids present are attempted. -/
theorem relLoop_mem_query (db : GraphDb) (rs : List Relationship)
    (r : Relationship) (b : Bool) :
    BuildEvent.relQuery r b ∈ relLoop db rs ↔
      r ∈ rs ∧ missingRef r = false ∧ b = db.relWriteOk r := by
  induction rs with
  | nil => simp [relLoop]
  | cons x rest ih =>
    simp only [relLoop, List.mem_append, ih, List.mem_cons]
    by_cases hm : missingRef x
    · simp [hm]
      aesop
    · by_cases hx : db.relWriteOk x <;>
        simp [hm, hx, eq_false_of_ne_true hm] <;> aesop

/-- Membership of a relationship-write error log in the relationship loop:
only attempted (non-missing-reference) failures are logged. -/
theorem relLoop_mem_log (db : GraphDb) (rs : List Relationship)
    (r : Relationship) :
    BuildEvent.relErrorLog r ∈ relLoop db rs ↔
      r ∈ rs ∧ missingRef r = false ∧ db.relWriteOk r = false := by
  induction rs with
  | nil => simp [relLoop]
  | cons x rest ih =>
    simp only [relLoop, List.mem_append, ih, List.mem_cons]
    by_cases hm : missingRef x
    · simp [hm]
      aesop
    · by_cases hx : db.relWriteOk x <;>
        simp [hm, hx, eq_false_of_ne_true hm] <;> aesop

/-- Every event of the relationship loop is a relationship event. -/
theorem relLoop_shapes (db : GraphDb) (rs : List Relationship) :
    ∀ ev ∈ relLoop db rs,
      (∃ r b, ev = BuildEvent.relQuery r b) ∨
        ∃ r, ev = BuildEvent.relErrorLog r := by
  induction rs with
  | nil => simp [relLoop]
  | cons x rest ih =>
    intro ev hev
    simp only [relLoop, List.mem_append] at hev
    rcases hev with hev | hev
    · by_cases hm : missingRef x
      · simp [hm] at hev
      · by_cases hx : db.relWriteOk x <;> simp [hm, hx] at hev <;> aesop
    · exact ih ev hev

/-- Claim C9, amended: when the Graph Writer applies a merged delta (and
the optional clear query succeeds), it returns normally with a complete
trace: every entity write is attempted regardless of other items' failures;
every relationship with both endpoint ids present is attempted; every
relationship with a missing source or target id is skipped silently — no
query is issued and nothing is logged for it, the skip is not logged as the
claim states — and every individual entity- or relationship-write failure
is caught and logged while the writer continues with the remaining items;
the writer never aborts the whole delta because of one item. -/
theorem build_graph_partial_failure_tolerant
    (db : GraphDb) (extracted : ExtractionResult) (clear_existing : Bool)
    (hclear : clear_existing = true → db.clearOk = true) :
    ∃ evs, build_graph db extracted clear_existing = Except.ok evs ∧
      (∀ e ∈ extracted.entities,
        BuildEvent.entityQuery e (db.entityWriteOk e) ∈ evs) ∧
      (∀ r ∈ extracted.relationships, missingRef r = false →
        BuildEvent.relQuery r (db.relWriteOk r) ∈ evs) ∧
      (∀ r, missingRef r = true →
        BuildEvent.relQuery r true ∉ evs ∧
        BuildEvent.relQuery r false ∉ evs ∧
        BuildEvent.relErrorLog r ∉ evs) ∧
      (∀ e, BuildEvent.entityQuery e false ∈ evs →
        BuildEvent.entityErrorLog e ∈ evs) ∧
      (∀ r, BuildEvent.relQuery r false ∈ evs →
        BuildEvent.relErrorLog r ∈ evs) := by
  have h1 : ∀ e ∈ extracted.entities,
      BuildEvent.entityQuery e (db.entityWriteOk e) ∈
        entityLoop db extracted.entities ++ relLoop db extracted.relationships :=
    fun e he =>
      List.mem_append_left _ ((entityLoop_mem_query db _ e _).mpr ⟨he, rfl⟩)
  have h2 : ∀ r ∈ extracted.relationships, missingRef r = false →
      BuildEvent.relQuery r (db.relWriteOk r) ∈
        entityLoop db extracted.entities ++ relLoop db extracted.relationships :=
    fun r hr hm =>
      List.mem_append_right _ ((relLoop_mem_query db _ r _).mpr ⟨hr, hm, rfl⟩)
  have h3q : ∀ r b, missingRef r = true →
      BuildEvent.relQuery r b ∉
        entityLoop db extracted.entities ++ relLoop db extracted.relationships := by
    intro r b hm hmem
    rcases List.mem_append.mp hmem with h | h
    · rcases entityLoop_shapes db _ _ h with ⟨e, b2, heq⟩ | ⟨e, heq⟩ <;>
        exact BuildEvent.noConfusion heq
    · have hfq := (relLoop_mem_query db _ r b).mp h
      rw [hm] at hfq
      simp at hfq
  have h3l : ∀ r, missingRef r = true →
      BuildEvent.relErrorLog r ∉
        entityLoop db extracted.entities ++ relLoop db extracted.relationships := by
    intro r hm hmem
    rcases List.mem_append.mp hmem with h | h
    · rcases entityLoop_shapes db _ _ h with ⟨e, b2, heq⟩ | ⟨e, heq⟩ <;>
        exact BuildEvent.noConfusion heq
    · have hfq := (relLoop_mem_log db _ r).mp h
      rw [hm] at hfq
      simp at hfq
  have h5 : ∀ e, BuildEvent.entityQuery e false ∈
      entityLoop db extracted.entities ++ relLoop db extracted.relationships →
      BuildEvent.entityErrorLog e ∈
        entityLoop db extracted.entities ++ relLoop db extracted.relationships := by
    intro e hmem
    rcases List.mem_append.mp hmem with h | h
    · have hfq := (entityLoop_mem_query db _ e false).mp h
      exact List.mem_append_left _
        ((entityLoop_mem_log db _ e).mpr ⟨hfq.1, hfq.2.symm⟩)
    · rcases relLoop_shapes db _ _ h with ⟨r, b2, heq⟩ | ⟨r, heq⟩ <;>
        exact BuildEvent.noConfusion heq
  have h6 : ∀ r, BuildEvent.relQuery r false ∈
      entityLoop db extracted.entities ++ relLoop db extracted.relationships →
      BuildEvent.relErrorLog r ∈
        entityLoop db extracted.entities ++ relLoop db extracted.relationships := by
    intro r hmem
    rcases List.mem_append.mp hmem with h | h
    · rcases entityLoop_shapes db _ _ h with ⟨e, b2, heq⟩ | ⟨e, heq⟩ <;>
        exact BuildEvent.noConfusion heq
    · have hfq := (relLoop_mem_query db _ r false).mp h
      exact List.mem_append_right _
        ((relLoop_mem_log db _ r).mpr ⟨hfq.1, hfq.2.1, hfq.2.2.symm⟩)
  cases clear_existing with
  | false =>
    refine ⟨entityLoop db extracted.entities ++ relLoop db extracted.relationships,
      by simp [build_graph], h1, h2, ?_, h5, h6⟩
    exact fun r hm => ⟨h3q r true hm, h3q r false hm, h3l r hm⟩
  | true =>
    have hc := hclear rfl
    refine ⟨BuildEvent.clearQuery ::
      (entityLoop db extracted.entities ++ relLoop db extracted.relationships),
      by simp [build_graph, hc], ?_, ?_, ?_, ?_, ?_⟩
    · exact fun e he => List.mem_cons_of_mem _ (h1 e he)
    · exact fun r hr hm => List.mem_cons_of_mem _ (h2 r hr hm)
    · intro r hm
      refine ⟨?_, ?_, ?_⟩ <;> intro hmem <;>
        rcases List.mem_cons.mp hmem with heq | hmem2
      · exact BuildEvent.noConfusion heq
      · exact h3q r true hm hmem2
      · exact BuildEvent.noConfusion heq
      · exact h3q r false hm hmem2
      · exact BuildEvent.noConfusion heq
      · exact h3l r hm hmem2
    · intro e hmem
      rcases List.mem_cons.mp hmem with heq | hmem2
      · exact BuildEvent.noConfusion heq
      · exact List.mem_cons_of_mem _ (h5 e hmem2)
    · intro r hmem
      rcases List.mem_cons.mp hmem with heq | hmem2
      · exact BuildEvent.noConfusion heq
      · exact List.mem_cons_of_mem _ (h6 r hmem2)

/-- Witness for the amended C9 theorem at a concrete delta and oracle. -/
theorem build_graph_partial_failure_tolerant_witness :
    ∃ evs, build_graph allOkDb skipDelta false = Except.ok evs ∧
      (∀ e ∈ skipDelta.entities,
        BuildEvent.entityQuery e (allOkDb.entityWriteOk e) ∈ evs) ∧
      (∀ r ∈ skipDelta.relationships, missingRef r = false →
        BuildEvent.relQuery r (allOkDb.relWriteOk r) ∈ evs) ∧
      (∀ r, missingRef r = true →
        BuildEvent.relQuery r true ∉ evs ∧
        BuildEvent.relQuery r false ∉ evs ∧
        BuildEvent.relErrorLog r ∉ evs) ∧
      (∀ e, BuildEvent.entityQuery e false ∈ evs →
        BuildEvent.entityErrorLog e ∈ evs) ∧
      (∀ r, BuildEvent.relQuery r false ∈ evs →
        BuildEvent.relErrorLog r ∈ evs) :=
  build_graph_partial_failure_tolerant allOkDb skipDelta false (by decide)

/-- Claim C9 counterexample: applying a delta holding a missing-target
relationship and a complete one, the writer's whole trace is the single
write of the complete relationship — the skipped relationship produces no
query and, contrary to the claim, no log entry at all (the source's skip
branch is a bare continue). -/
theorem build_graph_missing_ref_skipped_without_log :
    missingRef skipRel = true ∧
    missingRef goodRel = false ∧
    build_graph allOkDb skipDelta false =
      Except.ok [BuildEvent.relQuery goodRel true] ∧
    BuildEvent.relQuery skipRel true ∉ [BuildEvent.relQuery goodRel true] ∧
    BuildEvent.relQuery skipRel false ∉ [BuildEvent.relQuery goodRel true] ∧
    BuildEvent.relErrorLog skipRel ∉ [BuildEvent.relQuery goodRel true] := by
  refine ⟨by decide, by decide, rfl, by decide, by decide, by decide⟩

/-- json_end = rfind + 1 is never -1, so line 264's test on it is vacuous. -/
theorem pyRFind_add_one_ne_neg_one (s : String) (c : Char) :
    pyRFind s c + 1 ≠ -1 := by
  unfold pyRFind
  cases h : findIdxAux c s.toList.reverse <;> simp <;> omega

/-- The attempt loop returns the empty result when every attempt fails. -/
theorem extractLoop_all_fail (parse : String → Option ExtractionResult)
    (outcomes : List LLMOutcome)
    (hfail : ∀ o ∈ outcomes, attemptFailsB parse o = true) :
    extractLoop parse outcomes = emptyResult := by
  induction outcomes with
  | nil => rfl
  | cons o rest ih =>
    have hrest := ih fun x hx => hfail x (List.mem_cons_of_mem _ hx)
    have hhead := hfail o (List.mem_cons_self _ _)
    cases o with
    | timeout =>
      by_cases hr : rest.isEmpty <;> simp [extractLoop, hr, hrest]
    | exn =>
      by_cases hr : rest.isEmpty <;> simp [extractLoop, hr, hrest]
    | output s =>
      by_cases hc : pyFind s openBrace ≠ -1 ∧ pyRFind s closeBrace + 1 ≠ -1
      · simp only [attemptFailsB] at hhead
        rw [if_pos hc] at hhead
        simp only [Bool.and_eq_true, Option.isNone_iff_eq_none] at hhead
        by_cases hr : rest.isEmpty <;>
          simp [extractLoop, hc, hhead.1, hhead.2, hr, hrest]
      · by_cases hr : rest.isEmpty <;> simp [extractLoop, hc, hr, hrest]

/-- Claim C5: for every input chunk and every LLM behaviour — including
output strings with no braces, malformed JSON, or calls that always time
out — extract_entities_relationships returns a result and never raises to
its caller: it slices the output between the first opening and the last
closing brace and parses it; on parse failure it strips trailing commas
before closing brackets and braces and re-parses (and returns that repaired
parse); it retries the whole extraction over the max_attempts attempts; and
when every attempt fails (and likewise when LLM initialisation fails) it
returns the empty result with entities=[] and relationships=[], so a
permanently failing chunk does not crash the batch. -/
theorem extract_total_empty_after_exhausted_attempts
    (initOk : Bool) (parse : String → Option ExtractionResult)
    (outcomes : List LLMOutcome) :
    ((∀ o ∈ outcomes, attemptFailsB parse o = true) →
      extract_entities_relationships initOk parse outcomes = emptyResult) ∧
    (initOk = false →
      extract_entities_relationships initOk parse outcomes = emptyResult) ∧
    (∀ s rest d, outcomes = LLMOutcome.output s :: rest → initOk = true →
      pyFind s openBrace ≠ -1 →
      parse (pySlice s (pyFind s openBrace) (pyRFind s closeBrace + 1)) =
        some d →
      extract_entities_relationships initOk parse outcomes = d) ∧
    (∀ s rest d, outcomes = LLMOutcome.output s :: rest → initOk = true →
      pyFind s openBrace ≠ -1 →
      parse (pySlice s (pyFind s openBrace) (pyRFind s closeBrace + 1)) =
        none →
      parse (fixJson
        (pySlice s (pyFind s openBrace) (pyRFind s closeBrace + 1))) =
        some d →
      extract_entities_relationships initOk parse outcomes = d) := by
  refine ⟨?_, ?_, ?_, ?_⟩
  · intro hfail
    cases initOk with
    | false => rfl
    | true =>
      simpa [extract_entities_relationships] using
        extractLoop_all_fail parse outcomes hfail
  · intro h
    subst h
    rfl
  · intro s rest d houtcomes hinit hbrace hparse
    subst houtcomes
    subst hinit
    have hend := pyRFind_add_one_ne_neg_one s closeBrace
    simp [extract_entities_relationships, extractLoop, hbrace, hend, hparse]
  · intro s rest d houtcomes hinit hbrace hparse1 hparse2
    subst houtcomes
    subst hinit
    have hend := pyRFind_add_one_ne_neg_one s closeBrace
    simp [extract_entities_relationships, extractLoop, hbrace, hend, hparse1,
      hparse2]

/-- Witness for C5: a run whose three attempts time out, return a string
with no opening brace, and raise, under a parser that always fails, yields
the empty result. -/
theorem extract_total_empty_after_exhausted_attempts_witness :
    extract_entities_relationships true (fun _ => none)
      [LLMOutcome.timeout, LLMOutcome.output "no json here",
        LLMOutcome.exn] = emptyResult :=
  (extract_total_empty_after_exhausted_attempts true (fun _ => none)
    [LLMOutcome.timeout, LLMOutcome.output "no json here",
      LLMOutcome.exn]).1 (by decide)

/-- Claim C8: rule-based duplicate entity-type detection applied to the
label list Person, person, Vehicle — by prefilter_duplicate_entity_types
under arbitrary node counts, and by find_case_insensitive_duplicates on the
same labels — produces exactly one duplicate group, whose member list is
the case-variation pair Person, person, and no produced group contains
Vehicle. -/
theorem duplicate_type_detection_person_person_vehicle (c1 c2 c3 : Nat) :
    (prefilter_duplicate_entity_types
      [{ label := "Person", count := c1 }, { label := "person", count := c2 },
       { label := "Vehicle", count := c3 }]).length = 1 ∧
    (∀ g ∈ prefilter_duplicate_entity_types
      [{ label := "Person", count := c1 }, { label := "person", count := c2 },
       { label := "Vehicle", count := c3 }],
      g.duplicate_types = ["Person", "person"] ∧
        "Vehicle" ∉ g.duplicate_types) ∧
    (find_case_insensitive_duplicates ["Person", "person", "Vehicle"]).length
      = 1 ∧
    (∀ g ∈ find_case_insensitive_duplicates ["Person", "person", "Vehicle"],
      g.duplicate_types = ["Person", "person"] ∧
        "Vehicle" ∉ g.duplicate_types) := by
  have h : prefilter_duplicate_entity_types
      [{ label := "Person", count := c1 }, { label := "person", count := c2 },
       { label := "Vehicle", count := c3 }] =
      [{ duplicate_types := ["Person", "person"],
         keep_type := pyMaxBy
           (countOf
             [{ label := "Person", count := c1 },
              { label := "person", count := c2 },
              { label := "Vehicle", count := c3 }])
           ["Person", "person"] }] := rfl
  refine ⟨?_, ?_, by decide, by decide⟩
  · rw [h]
    rfl
  · rw [h]
    intro g hg
    rcases List.mem_singleton.mp hg with rfl
    refine ⟨rfl, ?_⟩
    show "Vehicle" ∉ ["Person", "person"]
    decide

/-- The execution loop is the per-entry contribution of each enumerated
plan entry, entries without a matching group contributing nothing. -/
theorem execLoop_eq_filterMap (db : CypherDb)
    (ans : Nat → Stage → Nat → Bool) (groups : List PlanGroup)
    (entries : List PlanEntry) :
    ∀ i, execLoop db ans groups i entries =
      (entries.enumFrom i).filterMap
        (fun ip => entryContrib db ans groups ip.1 ip.2) := by
  induction entries with
  | nil => intro i; rfl
  | cons p rest ih =>
    intro i
    simp only [execLoop, List.enumFrom, List.filterMap_cons, entryContrib]
    cases h : lookupGroup groups p.group_id with
    | none => simpa [h] using ih (i + 1)
    | some g => simpa [h] using ih (i + 1)

/-- The group results and the issued queries of execute_resolution_plan
are exactly those of the matched entries, in order. -/
theorem execute_resolution_plan_trace (db : CypherDb)
    (ans : Nat → Stage → Nat → Bool) (plan : ResolutionPlan) :
    execGroupResults db ans plan =
      ((plan.resolution_plan.enum).filterMap
        (fun ip => entryContrib db ans plan.groups ip.1 ip.2)).map
          Prod.fst ∧
    execQueries db ans plan =
      (((plan.resolution_plan.enum).filterMap
        (fun ip => entryContrib db ans plan.groups ip.1 ip.2)).map
          Prod.snd).flatten := by
  unfold execGroupResults execQueries execute_resolution_plan
  by_cases hemp : plan.resolution_plan.isEmpty
  · have hnil : plan.resolution_plan = [] := by
      simpa [List.isEmpty_iff] using hemp
    simp [hemp, hnil, List.enum]
  · simp only [hemp, Bool.false_eq_true, if_false]
    rw [show plan.resolution_plan.enum = plan.resolution_plan.enumFrom 0
      from rfl]
    rw [execLoop_eq_filterMap db ans plan.groups plan.resolution_plan 0]
    exact ⟨rfl, rfl⟩

/-- Claim C6, amended: a resolution_plan entry whose group_id has no
matching entry in groups is detected and skipped with a printed warning —
none of that entry's steps is executed and it contributes no group result —
but the ResolutionPlan as a whole is not rejected: every entry whose
group_id does match is still executed, and the recorded results and issued
queries are exactly those of the matched entries in order. -/
theorem resolution_plan_unmatched_entry_skipped_rest_executes
    (db : CypherDb) (ans : Nat → Stage → Nat → Bool)
    (plan : ResolutionPlan) :
    (∀ i entry, plan.resolution_plan.get? i = some entry →
      lookupGroup plan.groups entry.group_id = none →
      entryContrib db ans plan.groups i entry = none) ∧
    (∀ i entry g, plan.resolution_plan.get? i = some entry →
      lookupGroup plan.groups entry.group_id = some g →
      entryContrib db ans plan.groups i entry =
        some (runEntry db ans i entry g)) ∧
    execGroupResults db ans plan =
      ((plan.resolution_plan.enum).filterMap
        (fun ip => entryContrib db ans plan.groups ip.1 ip.2)).map
          Prod.fst ∧
    execQueries db ans plan =
      (((plan.resolution_plan.enum).filterMap
        (fun ip => entryContrib db ans plan.groups ip.1 ip.2)).map
          Prod.snd).flatten := by
  refine ⟨?_, ?_, (execute_resolution_plan_trace db ans plan).1,
    (execute_resolution_plan_trace db ans plan).2⟩
  · intro i entry _ hnone
    simp [entryContrib, hnone]
  · intro i entry g _ hsome
    simp [entryContrib, hsome]

/-- Witness for the amended C6 theorem: in orphanPlan the orphan entry
contributes nothing while the matched entry's merge query still runs. -/
theorem resolution_plan_unmatched_entry_skipped_rest_executes_witness :
    entryContrib allOkCypher yesAns orphanPlan.groups 0 orphanEntry = none :=
  (resolution_plan_unmatched_entry_skipped_rest_executes allOkCypher yesAns
    orphanPlan).1 0 orphanEntry rfl (by decide)

/-- Claim C6 counterexample: orphanPlan's first entry references the
group_id missing, absent from groups, yet the plan is not rejected before
execution — the orphan entry is skipped with a warning, the second entry's
merge operation MERGE-OK is executed, and the function returns True. -/
theorem resolution_plan_orphan_reference_not_rejected :
    lookupGroup orphanPlan.groups orphanEntry.group_id = none ∧
    orphanEntry ∈ orphanPlan.resolution_plan ∧
    execQueries allOkCypher yesAns orphanPlan = ["MERGE-OK"] ∧
    execReturns allOkCypher yesAns orphanPlan = true := by
  decide

/-- A pre-merge validation loop whose queries succeed through step j, whose
prompts are approved before step j and rejected at step j, ends rejected,
having issued exactly the first j+1 queries. -/
theorem runValLoop_rejected_at (db : CypherDb) (approve : Nat → Bool) :
    ∀ (steps : List VStep) (base j : Nat),
      j < steps.length →
      (∀ k v, k ≤ j → steps.get? k = some v →
        db.ok (v.query.getD "") = true) →
      (∀ k, k < j → approve (base + k) = true) →
      approve (base + j) = false →
      ∃ recs, runValLoop db approve base steps =
        ValOutcome.rejectedByUser recs
          ((steps.take (j + 1)).map (fun v => v.query.getD "")) := by
  intro steps
  induction steps with
  | nil =>
    intro base j hj
    exact absurd hj (by simp)
  | cons v rest ih =>
    intro base j hj hdb hprev hrej
    have hq : db.ok (v.query.getD "") = true := hdb 0 v (Nat.zero_le j) rfl
    cases j with
    | zero =>
      have hpr : approve base = false := by simpa using hrej
      refine ⟨[{ step := base + 1, query := v.query.getD "",
                 success := true,
                 result_count := db.rows (v.query.getD ""),
                 user_approved := some false }], ?_⟩
      simp [runValLoop, hq, hpr]
    | succ j2 =>
      have hpr0 : approve base = true := by
        simpa using hprev 0 (Nat.succ_pos j2)
      have hdb2 : ∀ k v2, k ≤ j2 → rest.get? k = some v2 →
          db.ok (v2.query.getD "") = true := fun k v2 hk hv =>
        hdb (k + 1) v2 (Nat.succ_le_succ hk) (by simpa using hv)
      have hprev2 : ∀ k, k < j2 → approve (base + 1 + k) = true := by
        intro k hk
        have h2 := hprev (k + 1) (Nat.succ_lt_succ hk)
        rw [show base + 1 + k = base + (k + 1) by omega]
        exact h2
      have hrej2 : approve (base + 1 + j2) = false := by
        rw [show base + 1 + j2 = base + (j2 + 1) by omega]
        exact hrej
      obtain ⟨recs, hrec⟩ :=
        ih (base + 1) j2 (by simpa using hj) hdb2 hprev2 hrej2
      refine ⟨{ step := base + 1, query := v.query.getD "",
                success := true,
                result_count := db.rows (v.query.getD ""),
                user_approved := some true } :: recs, ?_⟩
      simp [runValLoop, hq, hpr0, hrec]

/-- The run of a plan entry depends on the operator only through the
answers for that entry's own prompts. -/
theorem runEntry_ans_congr (db : CypherDb)
    (ans ans2 : Nat → Stage → Nat → Bool) (m : Nat) (p : PlanEntry)
    (g : PlanGroup) (h : ∀ st k, ans m st k = ans2 m st k) :
    runEntry db ans m p g = runEntry db ans2 m p g := by
  unfold runEntry
  rw [show (fun j => ans m Stage.preVal j) = (fun j => ans2 m Stage.preVal j)
      from funext (fun j => h Stage.preVal j),
    show (fun j => ans m Stage.mergeOp j) = (fun j => ans2 m Stage.mergeOp j)
      from funext (fun j => h Stage.mergeOp j),
    show (fun j => ans m Stage.postVal j) = (fun j => ans2 m Stage.postVal j)
      from funext (fun j => h Stage.postVal j)]

/-- Claim C7: during execution of a resolution plan, if the operator
answers no at a reached pre-merge validation prompt of a plan entry, that
entry's recorded status is the rejected state pre_validation_rejected, no
merge operation of that entry is ever executed afterwards (its operation
record list is empty and the only queries issued are the pre-merge
validation queries up to the rejection), the result is recorded in the
plan's execution results, and the execution of the remaining entries is
unaffected: their runs are identical under any operator agreeing on the
other entries' prompts. -/
theorem operator_pre_validation_rejection_halts_group
    (db : CypherDb) (ans : Nat → Stage → Nat → Bool)
    (plan : ResolutionPlan) (i : Nat) (entry : PlanEntry)
    (group : PlanGroup) (j : Nat)
    (hi : plan.resolution_plan.get? i = some entry)
    (hg : lookupGroup plan.groups entry.group_id = some group)
    (hj : j < entry.pre_merge_validation.length)
    (hdb : ∀ k v, k ≤ j → entry.pre_merge_validation.get? k = some v →
      db.ok (v.query.getD "") = true)
    (hprev : ∀ k, k < j → ans i Stage.preVal k = true)
    (hrej : ans i Stage.preVal j = false) :
    (runEntry db ans i entry group).1.status = "pre_validation_rejected" ∧
    (runEntry db ans i entry group).1.operation_results = [] ∧
    (runEntry db ans i entry group).2 =
      ((entry.pre_merge_validation.take (j + 1)).map
        (fun v => v.query.getD "")) ∧
    (runEntry db ans i entry group).1 ∈ execGroupResults db ans plan ∧
    (∀ ans2, (∀ m st k, m ≠ i → ans m st k = ans2 m st k) →
      ∀ m p g, m ≠ i →
        runEntry db ans m p g = runEntry db ans2 m p g) := by
  have hprev0 : ∀ k, k < j → (fun k2 => ans i Stage.preVal k2) (0 + k) = true := by
    intro k hk
    simpa using hprev k hk
  have hrej0 : (fun k2 => ans i Stage.preVal k2) (0 + j) = false := by
    simpa using hrej
  obtain ⟨recs, hval⟩ := runValLoop_rejected_at db
    (fun k2 => ans i Stage.preVal k2) entry.pre_merge_validation 0 j hj hdb
    hprev0 hrej0
  have hrun : runEntry db ans i entry group =
      ({ group_id := group.group_id, status := "pre_validation_rejected",
         pre_validation_results := recs, operation_results := [],
         post_validation_results := [] },
       (entry.pre_merge_validation.take (j + 1)).map
         (fun v => v.query.getD "")) := by
    unfold runEntry
    rw [hval]
  refine ⟨by rw [hrun], by rw [hrun], by rw [hrun], ?_, ?_⟩
  · rw [(execute_resolution_plan_trace db ans plan).1]
    have hmem : (i, entry) ∈ plan.resolution_plan.enum := by
      rw [List.mk_mem_enum_iff_getElem?]
      rw [List.get?_eq_getElem?] at hi
      exact hi
    refine List.mem_map_of_mem Prod.fst ?_
    exact List.mem_filterMap.mpr
      ⟨(i, entry), hmem, by simp [entryContrib, hg]⟩
  · intro ans2 hagree m p g hm
    exact runEntry_ans_congr db ans ans2 m p g (fun st k => hagree m st k hm)

/-- Witness for C7: a no answer to the only pre-merge validation prompt of
rejectPlan's single entry. -/
theorem operator_pre_validation_rejection_halts_group_witness :
    (runEntry allOkCypher noAns 0 rejectEntry goodGroup).1.status =
      "pre_validation_rejected" ∧
    (runEntry allOkCypher noAns 0 rejectEntry goodGroup).1.operation_results
      = [] ∧
    (runEntry allOkCypher noAns 0 rejectEntry goodGroup).2 =
      ((rejectEntry.pre_merge_validation.take 1).map
        (fun v => v.query.getD "")) ∧
    (runEntry allOkCypher noAns 0 rejectEntry goodGroup).1 ∈
      execGroupResults allOkCypher noAns rejectPlan ∧
    (∀ ans2, (∀ m st k, m ≠ 0 → noAns m st k = ans2 m st k) →
      ∀ m p g, m ≠ 0 →
        runEntry allOkCypher noAns m p g = runEntry allOkCypher ans2 m p g) :=
  operator_pre_validation_rejection_halts_group allOkCypher noAns rejectPlan
    0 rejectEntry goodGroup 0 rfl (by decide) (by decide)
    (fun k v _ _ => rfl) (fun k hk => absurd hk (Nat.not_lt_zero k)) rfl

end DocGraph
